import Mathlib

/-!
# Verification of the GlaDOS voice-assistant pipeline (glados.py)

A shallow embedding of the core orchestration logic of `glados.py`:
text is modelled as `List Char` (the `.data` of a Python `str`), Python
lists as Lean lists, the `queue.Queue` objects as Lean lists (front =
oldest element), and the mutable attributes of the `Glados` object as
fields of explicit state records.  External collaborators (VAD, ASR,
TTS synthesis, the HTTP transport) are inputs to the modelled
functions.  Configuration values that live outside this file
(`LLM_STOPWORDS`, `AI_OUTPUT_TO_IGNORE`, `STT_HALLUCINATIONS`,
`WAKE_WORD`, `SIMILARITY_THRESHOLD`, `BUFFER_SIZE // VAD_SIZE`,
`INITIAL_MESSAGES`) are parameters.
-/

set_option autoImplicit false

namespace Glados

/-- Python strings are modelled by their character lists. -/
abbrev Str := List Char

/-- Characters of a Lean string literal, used to write concrete Python strings. -/
def chars (s : String) : Str := s.data

/-- ASCII lowering of one character; models Python `str.lower` on the
ASCII inputs that occur in this pipeline. -/
def asciiToLower (c : Char) : Char :=
  if 'A' ≤ c ∧ c ≤ 'Z' then Char.ofNat (c.toNat + 32) else c

/-- `text.lower()` (ASCII fragment). -/
def lowerStr (s : Str) : Str := s.map asciiToLower

/-- The whitespace characters recognised by Python `str.split()` (ASCII fragment). -/
def isPySpace (c : Char) : Bool :=
  c = ' ' || c = '\t' || c = '\n' || c = '\r' || c = '\x0b' || c = '\x0c'

/-- Helper for `pySplit`: `cur` holds the characters of the word being
read, in reverse. -/
def pySplitAux (cur : Str) : Str → List Str
  | [] => if cur.isEmpty then [] else [cur.reverse]
  | c :: rest =>
    if isPySpace c then
      if cur.isEmpty then pySplitAux [] rest else cur.reverse :: pySplitAux [] rest
    else
      pySplitAux (c :: cur) rest

/-- Python `text.split()`: split on runs of whitespace, no empty words. -/
def pySplit (s : Str) : List Str := pySplitAux [] s

/-! ## Levenshtein distance and the wake-word check
(`Levenshtein.distance` and `Glados._wakeword_detected`, glados.py lines 233-243) -/

/-- Textbook Levenshtein distance, written with an explicit fuel
argument so that it is structurally recursive (and hence reducible by
the kernel).  Each recursive call removes at least one character from
`s ++ t`, so fuel `s.length + t.length` never runs out. -/
def levenshteinFuel : Nat → Str → Str → Nat
  | 0, _, _ => 0
  | _ + 1, [], t => t.length
  | _ + 1, a :: s, [] => (a :: s).length
  | fuel + 1, a :: s, b :: t =>
    if a = b then levenshteinFuel fuel s t
    else 1 + min (levenshteinFuel fuel s (b :: t))
            (min (levenshteinFuel fuel (a :: s) t) (levenshteinFuel fuel s t))

/-- `Levenshtein.distance` of the `Levenshtein` package: the standard
(unweighted) edit distance. -/
def levenshtein (s t : Str) : Nat := levenshteinFuel (s.length + t.length) s t

/-- `min([distance(word.lower(), self.wake_word) for word in words])`,
as an `Option` because Python `min` raises `ValueError` on an empty
list. -/
def closestDistance (wakeWord : Str) : List Str → Option Nat
  | [] => none
  | w :: ws =>
    some (ws.foldl (fun acc w2 => min acc (levenshtein (lowerStr w2) wakeWord))
      (levenshtein (lowerStr w) wakeWord))

/-- `Glados._wakeword_detected`.  `none` models the `ValueError` that
`min([])` raises when the transcript has no whitespace-separated
words. -/
def wakewordDetected (wakeWord : Str) (similarityThreshold : Nat) (text : Str) : Option Bool :=
  (closestDistance wakeWord (pySplit text)).map (fun d => decide (d < similarityThreshold))

/-! ## Sentence cleanup (`Glados._process_sentence`, glados.py lines 490-513) -/

/-- The character class `[a-zA-Z0-9.,?!;:'" -]` kept by the second
`re.sub` of `_process_sentence`. -/
def allowedChar (c : Char) : Bool :=
  ('a' ≤ c && c ≤ 'z') || ('A' ≤ c && c ≤ 'Z') || ('0' ≤ c && c ≤ '9') ||
  c = '.' || c = ',' || c = '?' || c = '!' || c = ';' || c = ':' ||
  c = '\'' || c = '"' || c = ' ' || c = '-'

/-- Scanning helper for the regex `\*.*?\*|\(.*?\)`: starting just
after an opening `*` or `(`, find the first occurrence of `close`.
The non-greedy `.*?` cannot match a newline, so the scan fails if a
newline comes first; it also fails at the end of the string. -/
def scanCloseList (close : Char) : Str → Option Str
  | [] => none
  | c :: rest =>
    if c = close then some rest
    else if c = '\n' then none
    else scanCloseList close rest

/-- `scanCloseList` only ever returns a strict suffix of its input. -/
theorem scanCloseList_length {close : Char} :
    ∀ {l r : Str}, scanCloseList close l = some r → r.length < l.length := by
  intro l
  induction l with
  | nil => intro r h; simp [scanCloseList] at h
  | cons c rest ih =>
    intro r h
    simp only [scanCloseList] at h
    by_cases hc : c = close
    · rw [if_pos hc] at h
      cases h
      simp
    · rw [if_neg hc] at h
      by_cases hn : c = '\n'
      · rw [if_pos hn] at h
        cases h
      · rw [if_neg hn] at h
        exact Nat.lt_succ_of_lt (ih h)

/-- `re.sub(r"\*.*?\*|\(.*?\)", "", s)`: scan left to right; at a `*`
(resp. `(`) try to complete a minimal match and drop it, otherwise
keep the character.  Written with a fuel argument for structural
recursion; every step consumes at least one input character, so fuel
`s.length` suffices. -/
def stripDirectionsFuel : Nat → Str → Str
  | 0, l => l
  | _ + 1, [] => []
  | fuel + 1, c :: rest =>
    if c = '*' then
      match scanCloseList '*' rest with
      | some rest2 => stripDirectionsFuel fuel rest2
      | none => c :: stripDirectionsFuel fuel rest
    else if c = '(' then
      match scanCloseList ')' rest with
      | some rest2 => stripDirectionsFuel fuel rest2
      | none => c :: stripDirectionsFuel fuel rest
    else c :: stripDirectionsFuel fuel rest

/-- Removal of `*...*` and `(...)` stage directions, first `re.sub` of
`_process_sentence`. -/
def stripDirections (l : Str) : Str := stripDirectionsFuel l.length l

/-- Python `sentence.removesuffix(stopword)`. -/
def removesuffix (s w : Str) : Str :=
  if w.isSuffixOf s then s.take (s.length - w.length) else s

/-- The `for stopword in LLM_STOPWORDS: sentence = sentence.removesuffix(stopword)` loop. -/
def removeStopwords (stopwords : List Str) (s : Str) : Str :=
  stopwords.foldl removesuffix s

/-- The cleanup applied by `_process_sentence` to the joined sentence:
stopword suffix removal, stage-direction stripping, character-class
filtering, and the trailing space. -/
def cleanSentenceStr (stopwords : List Str) (s : Str) : Str :=
  ((stripDirections (removeStopwords stopwords s)).filter allowedChar) ++ [' ']

/-! ## The dialogue data model -/

/-- One entry of `self.messages` (a `{"role": ..., "content": ...}` dict). -/
structure Message where
  role : String
  content : Str
deriving DecidableEq

/-- An item of the dynamically-typed `tts_queue`.  `_process_sentence`
and the end-of-stream sentinel put `str` values (`text`); the residual
flush at glados.py line 480 puts a Python *list* of token strings
(`pylist`). -/
inductive TtsItem where
  | text : Str → TtsItem
  | pylist : List Str → TtsItem
deriving DecidableEq

/-- The `<EOS>` end-of-stream sentinel. -/
def eosStr : Str := chars "<EOS>"

/-! ## The LLM worker (`Glados.process_LLM`, glados.py lines 426-488) -/

/-- One parsed `data: {...}` record of the streaming LLM response
(after `_clean_raw_bytes`). -/
structure LlmRec where
  content : Str
  stop : Bool
deriving DecidableEq

/-- The sentence-terminator tokens `[".", "!", "?", ":", ";", "?!"]`. -/
def isTerminator (t : Str) : Bool :=
  t == chars "." || t == chars "!" || t == chars "?" ||
  t == chars ":" || t == chars ";" || t == chars "?!"

/-- `Glados._process_line`: the token of a record, or `None` for a stop record. -/
def processLine (r : LlmRec) : Option Str :=
  if r.stop then none else some r.content

/-- `Glados._process_sentence` seen as the list of items it puts on the
TTS queue (empty when the cleaned sentence is dropped). -/
def processSentence (stopwords ignore : List Str) (tokens : List Str) : List TtsItem :=
  let sentence := cleanSentenceStr stopwords tokens.flatten
  if sentence.isEmpty then []
  else if ignore.contains sentence then []
  else [TtsItem.text sentence]

/-- Result of consuming the streamed records: `items` are the values
put on the TTS queue by `_process_sentence`, `raws` is ghost
instrumentation recording each flushed sentence as its raw token list
at the moment of the flush, and `resid` is the token buffer left when
the stream ends. -/
structure StreamOut where
  items : List TtsItem
  raws : List (List Str)
  resid : List Str
deriving DecidableEq

/-- The `for line in response.iter_lines()` loop of `process_LLM`.
The shared `self.processing` flag is modelled as a value `proc` that
is constant for the duration of one iteration (a mid-stream barge-in
is modelled by `proc = false`); when it is false the loop breaks
before handling the next record.  Empty keep-alive lines are not
records; a record whose token is the empty string is skipped by the
`if next_token:` truthiness test. -/
def streamLoop (stopwords ignore : List Str) (proc : Bool) (sentence : List Str) :
    List LlmRec → StreamOut
  | [] => ⟨[], [], sentence⟩
  | r :: rest =>
    if proc then
      match processLine r with
      | none => streamLoop stopwords ignore proc sentence rest
      | some tok =>
        if tok.isEmpty then streamLoop stopwords ignore proc sentence rest
        else
          if isTerminator tok then
            let out := streamLoop stopwords ignore proc [] rest
            ⟨processSentence stopwords ignore (sentence ++ [tok]) ++ out.items,
              (sentence ++ [tok]) :: out.raws, out.resid⟩
          else streamLoop stopwords ignore proc (sentence ++ [tok]) rest
    else ⟨[], [], sentence⟩

/-- The `content` fields of the records with `stop == false`. -/
def nonstopContents (recs : List LlmRec) : List Str :=
  (recs.filter (fun r => !r.stop)).map (fun r => r.content)

/-- Everything one successful `process_LLM` iteration puts on the TTS
queue after the response headers are OK (glados.py lines 465-482): the
cleaned sentences, then — if the flag still permits speech and a
partial sentence is left — the *raw token list* of that residual
sentence, then the `"<EOS>"` sentinel. -/
def llmSuccessPuts (stopwords ignore : List Str) (proc : Bool) (recs : List LlmRec) :
    List TtsItem :=
  let out := streamLoop stopwords ignore proc [] recs
  out.items ++
    (if proc && !out.resid.isEmpty then [TtsItem.pylist out.resid] else []) ++
    [TtsItem.text eosStr]

/-! ## The TTS worker (`Glados.process_TTS_thread`, glados.py lines 305-376) -/

/-- Python `" ".join(xs)`. -/
def spaceJoin (xs : List Str) : Str := (List.intersperse [' '] xs).flatten

/-- Python truthiness of a TTS-queue item (`not generated_text`):
empty strings and empty lists are falsy. -/
def truthyItem : TtsItem → Bool
  | TtsItem.text s => !s.isEmpty
  | TtsItem.pylist ts => !ts.isEmpty

/-- The content committed by the `finished` branch: after the
`isinstance(assistant_text, list)` workaround reassigns
`assistant_text = assistant_text[0]`, `" ".join(assistant_text)` joins
the *characters* of the first accumulated string (or, for the
residual-flush list item, its token strings). -/
def commitContent : TtsItem → Str
  | TtsItem.text s => spaceJoin (s.map (fun c => [c]))
  | TtsItem.pylist ts => spaceJoin ts

/-- The thread-local state of `process_TTS_thread`: the accumulated
`assistant_text` list and the `finished` flag.  (`system_text` and
`interrupted` feed only logging and commented-out code and are
omitted.) -/
structure TtsLocal where
  assistantText : List TtsItem
  finished : Bool
deriving DecidableEq

/-- One iteration of the `process_TTS_thread` loop body for a dequeued
item.  External inputs: `audioLen` is the length of the synthesized
audio and `interrupted` is the outcome of the `percentage_played`
playback monitor (true when barge-in cleared `self.processing` during
playback).  Returns `none` when `assistant_text[0]` raises `IndexError`
(the `finished` branch with an empty list), which kills the thread;
otherwise returns the new local state, the new `self.messages`, and
whether `percentage_played` replaced (drained) the TTS queue. -/
def ttsHandleItem (loc : TtsLocal) (msgs : List Message) (item : TtsItem)
    (audioLen : Nat) (interrupted : Bool) :
    Option (TtsLocal × List Message × Bool) :=
  let step : TtsLocal × Bool :=
    if item = TtsItem.text eosStr then ({ loc with finished := true }, false)
    else if truthyItem item = false then (loc, false)
    else if audioLen = 0 then (loc, false)
    else if interrupted then
      ({ assistantText := loc.assistantText ++ [item], finished := true }, true)
    else
      ({ loc with assistantText := loc.assistantText ++ [item] }, false)
  if step.1.finished then
    match step.1.assistantText with
    | [] => none
    | first :: _ =>
      some (⟨[], false⟩, msgs ++ [⟨"assistant", commitContent first⟩], step.2)
  else
    some (step.1, msgs, step.2)

/-- Run the TTS worker over a list of queue items under uninterrupted
playback of non-empty audio (`audioLen = 1`, `interrupted = false`),
stopping with `none` if an iteration raises. -/
def runTtsItems (loc : TtsLocal) (msgs : List Message) : List TtsItem → Option (TtsLocal × List Message)
  | [] => some (loc, msgs)
  | item :: rest =>
    match ttsHandleItem loc msgs item 1 false with
    | none => none
    | some (loc2, msgs2, _) => runTtsItems loc2 msgs2 rest

/-! ## Interruption accounting (`Glados.clip_interrupted_sentence`,
glados.py lines 378-399) -/

/-- Python `round` on an exact rational: round half to even.  (The code
computes with floats;  the claims evaluate it only where the value is
an exact small integer, where float and rational arithmetic agree.) -/
def pyRound (q : ℚ) : ℤ :=
  if q - ⌊q⌋ < 1 / 2 then ⌊q⌋
  else if q - ⌊q⌋ > 1 / 2 then ⌊q⌋ + 1
  else if Even ⌊q⌋ then ⌊q⌋ else ⌊q⌋ + 1

/-- `Glados.clip_interrupted_sentence`. -/
def clipInterruptedSentence (generatedText : Str) (percentagePlayed : ℚ) : Str :=
  let tokens := pySplit generatedText
  let wordsToPrint := (pyRound (percentagePlayed / 100 * (tokens.length : ℚ))).toNat
  let text := spaceJoin (tokens.take wordsToPrint)
  if wordsToPrint < tokens.length then text ++ chars "<INTERRUPTED>" else text

/-! ## The listening thread: utterance assembly and dispatch
(`Glados._manage_pre_activation_buffer` lines 191-214,
`Glados._process_detected_audio` lines 245-283, `Glados.reset` lines 294-303) -/

/-- The state of the `Glados` object as seen from the listening
thread.  `F` is the type of one audio frame (a numpy block of
`VAD_SIZE` ms).  `buffer` is the pre-roll ring (`self.buffer`, front =
oldest), `samples` is `self.samples`, `playing` is whether `sounddevice`
playback is active, `captureActive` is whether `self.input_stream` is
started, `llmQueue` is `self.llm_queue` and `messages` is
`self.messages`. -/
structure GladosState (F : Type) where
  buffer : List F
  samples : List F
  recordingStarted : Bool
  gapCounter : Nat
  processing : Bool
  playing : Bool
  captureActive : Bool
  llmQueue : List Str
  messages : List Message
deriving DecidableEq

/-- The pre-roll insertion of `_manage_pre_activation_buffer`:
`queue.Queue(maxsize)` is full when `0 < maxsize` and it holds at
least `maxsize` items; then the oldest sample is discarded before the
new one is put. -/
def pushPreRoll {F : Type} (bufferMax : Nat) (buf : List F) (sample : F) : List F :=
  (if 0 < bufferMax ∧ bufferMax ≤ buf.length then buf.drop 1 else buf) ++ [sample]

/-- `Glados._manage_pre_activation_buffer` (the `PreActivation` state
handler, reached from `_handle_audio_sample` when
`self.recording_started` is false).  `bufferMax` is
`BUFFER_SIZE // VAD_SIZE`.  On a voiced frame: `sd.stop()`, clear
`self.processing`, seed `self.samples` from the buffer, and set
`self.recording_started`. -/
def managePreActivationBuffer {F : Type} (bufferMax : Nat) (st : GladosState F)
    (sample : F) (vadConfidence : Bool) : GladosState F :=
  let buf := pushPreRoll bufferMax st.buffer sample
  if vadConfidence then
    { st with buffer := buf, playing := false, processing := false,
              samples := buf, recordingStarted := true }
  else
    { st with buffer := buf }

/-- `Glados._process_detected_audio`, with the ASR transcription
`detectedText` as an external input.  `none` models the uncaught
`ValueError` that `_wakeword_detected` raises on a transcript with no
words (in that case `reset()` and the stream restart never run).
The trailing map is `self.reset()` followed by
`self.input_stream.start()`. -/
def processDetectedAudio {F : Type} (hallucinations : List Str) (wakeWord : Option Str)
    (similarityThreshold : Nat) (st : GladosState F) (detectedText : Str) :
    Option (GladosState F) :=
  let st0 := { st with captureActive := false }
  let nonempty := !detectedText.isEmpty
  let hallucination :=
    nonempty && hallucinations.any (fun h => lowerStr h == lowerStr detectedText)
  let branched : Option (GladosState F) :=
    if nonempty && !hallucination then
      match wakeWord with
      | some ww =>
        match wakewordDetected ww similarityThreshold detectedText with
        | none => none
        | some true =>
          some { st0 with llmQueue := st0.llmQueue ++ [detectedText], processing := true }
        | some false => some st0
      | none =>
        some { st0 with llmQueue := st0.llmQueue ++ [detectedText], processing := true }
    else
      some { st0 with processing := true }
  branched.map fun s =>
    { s with recordingStarted := false, samples := [], gapCounter := 0,
             buffer := [], captureActive := true }

/-! ## A whole-pipeline transition system for the transcript log -/

/-- The shared state touched by the three worker threads, as far as the
transcript log is concerned. -/
structure SysState where
  messages : List Message
  llmQueue : List Str
  ttsQueue : List TtsItem
  ttsLocal : TtsLocal
  processing : Bool
  ttsAlive : Bool
deriving DecidableEq

/-- Interleaved execution of the pipeline, one observable operation per
step.  `enqueueUser` is the accepted-transcript branch of
`_process_detected_audio`; `bargeIn` is the voiced-frame branch of
`_manage_pre_activation_buffer` clearing `self.processing`; `llmFail`
is a `process_LLM` iteration whose request hits a connection error or a
non-OK HTTP status (the user turn is already appended, nothing else
happens); `llmSuccess` is an iteration with an OK streamed response
(modelled atomically: its TTS puts are appended in one step);
`ttsDequeue` / `ttsCrash` dequeue and handle one TTS item, the latter
when `assistant_text[0]` raises `IndexError` and the thread dies. -/
inductive Step (stopwords ignore : List Str) : SysState → SysState → Prop
  | enqueueUser (st : SysState) (text : Str) (h : text ≠ []) :
      Step stopwords ignore st
        { st with llmQueue := st.llmQueue ++ [text], processing := true }
  | bargeIn (st : SysState) :
      Step stopwords ignore st { st with processing := false }
  | llmFail (st : SysState) (text : Str) (rest : List Str)
      (h : st.llmQueue = text :: rest) :
      Step stopwords ignore st
        { st with llmQueue := rest,
                  messages := st.messages ++ [⟨"user", text⟩] }
  | llmSuccess (st : SysState) (text : Str) (rest : List Str) (recs : List LlmRec)
      (h : st.llmQueue = text :: rest) :
      Step stopwords ignore st
        { st with llmQueue := rest,
                  messages := st.messages ++ [⟨"user", text⟩],
                  ttsQueue := st.ttsQueue ++ llmSuccessPuts stopwords ignore st.processing recs }
  | ttsDequeue (st : SysState) (item : TtsItem) (rest : List TtsItem)
      (audioLen : Nat) (interrupted : Bool)
      (loc2 : TtsLocal) (msgs2 : List Message) (cleared : Bool)
      (hq : st.ttsQueue = item :: rest) (ha : st.ttsAlive = true)
      (hh : ttsHandleItem st.ttsLocal st.messages item audioLen interrupted
              = some (loc2, msgs2, cleared)) :
      Step stopwords ignore st
        { st with ttsQueue := if cleared then [] else rest,
                  ttsLocal := loc2, messages := msgs2 }
  | ttsCrash (st : SysState) (item : TtsItem) (rest : List TtsItem)
      (audioLen : Nat) (interrupted : Bool)
      (hq : st.ttsQueue = item :: rest) (ha : st.ttsAlive = true)
      (hh : ttsHandleItem st.ttsLocal st.messages item audioLen interrupted = none) :
      Step stopwords ignore st { st with ttsQueue := rest, ttsAlive := false }

/-- Reachability under interleaved worker steps. -/
def Reachable (stopwords ignore : List Str) : SysState → SysState → Prop :=
  Relation.ReflTransGen (Step stopwords ignore)

/-- The pipeline state at startup: transcript seeded with
`INITIAL_MESSAGES` (taken empty here), queues empty, `self.processing`
false. -/
def sysInit : SysState := ⟨[], [], [], ⟨[], false⟩, false, true⟩

/-- The role a strict alternation expects after `r`. -/
def expectedAfter (r : String) : String :=
  if r = "user" then "assistant" else "user"

/-- `alternatesFrom r l`: the roles `l` follow the strict alternation
starting at expected role `r`. -/
def alternatesFrom : String → List String → Bool
  | _, [] => true
  | r, x :: xs => (x == r) && alternatesFrom (expectedAfter r) xs

/-- Strict `user, assistant, user, assistant, …` alternation. -/
def rolesAlternate (roles : List String) : Bool := alternatesFrom "user" roles

/-- The expected role after processing roles `l` starting from `r`. -/
def afterRoles (r : String) (l : List String) : String :=
  l.foldl (fun e _ => expectedAfter e) r

/-- A successful, uninterrupted, fully-played-out conversational turn:
`process_LLM` appends the user turn and streams `recs`; the TTS worker
then consumes every queued item of the turn with non-empty synthesized
audio and no barge-in. -/
def completedOkTurn (stopwords ignore : List Str) (st : SysState) (text : Str)
    (recs : List LlmRec) : Option SysState :=
  match runTtsItems st.ttsLocal (st.messages ++ [⟨"user", text⟩])
      (llmSuccessPuts stopwords ignore true recs) with
  | none => none
  | some (loc2, msgs2) => some { st with messages := msgs2, ttsLocal := loc2 }

/-- A turn whose stream flushes at least one sentence that survives
cleanup, leaves no residual partial sentence, and is not dropped by
`AI_OUTPUT_TO_IGNORE`: its TTS puts are non-empty proper strings
followed by the sentinel. -/
def GoodTurn (stopwords ignore : List Str) (recs : List LlmRec) : Prop :=
  ∃ sents : List Str, sents ≠ [] ∧
    llmSuccessPuts stopwords ignore true recs
      = sents.map TtsItem.text ++ [TtsItem.text eosStr] ∧
    ∀ s ∈ sents, s ≠ [] ∧ s ≠ eosStr

/-- Iterate `completedOkTurn` over a list of turns. -/
def iterateOkTurns (stopwords ignore : List Str) :
    SysState → List (Str × List LlmRec) → Option SysState
  | st, [] => some st
  | st, (text, recs) :: more =>
    match completedOkTurn stopwords ignore st text recs with
    | none => none
    | some st2 => iterateOkTurns stopwords ignore st2 more

/-! ## Supporting lemmas -/

/-- Characters kept by the class filter are never match openers of the
stage-direction regex. -/
theorem allowedChar_not_open {c : Char} (h : allowedChar c = true) : c ≠ '*' ∧ c ≠ '(' := by
  constructor <;> rintro rfl <;> exact absurd h (by decide)

/-- On a string with no `*` and no `(`, the stage-direction stripping
is the identity (for any fuel). -/
theorem stripDirectionsFuel_no_open :
    ∀ (fuel : Nat) (l : Str), (∀ c ∈ l, c ≠ '*' ∧ c ≠ '(') → stripDirectionsFuel fuel l = l := by
  intro fuel
  induction fuel with
  | zero => intro l _; rfl
  | succ n ih =>
    intro l hl
    cases l with
    | nil => rfl
    | cons c rest =>
      have hc := hl c (List.mem_cons_self c rest)
      have hrest : ∀ c2 ∈ rest, c2 ≠ '*' ∧ c2 ≠ '(' :=
        fun c2 h2 => hl c2 (List.mem_cons_of_mem c h2)
      simp [stripDirectionsFuel, hc.1, hc.2, ih rest hrest]

/-- `stripDirections` fixes strings without `*` or `(`. -/
theorem stripDirections_no_open (l : Str) (h : ∀ c ∈ l, c ≠ '*' ∧ c ≠ '(') :
    stripDirections l = l :=
  stripDirectionsFuel_no_open _ _ h

/-- The class filter is idempotent. -/
theorem filter_allowed_idem (l : Str) :
    (l.filter allowedChar).filter allowedChar = l.filter allowedChar := by
  induction l with
  | nil => rfl
  | cons c rest ih =>
    by_cases hc : allowedChar c = true
    · simp [List.filter_cons, hc, ih]
    · simp [List.filter_cons, hc, ih]

/-- The cleanup pipeline applied to an already-cleaned string (one of
the form `filtered ++ " "`) on which stopword removal acts trivially
just appends one more trailing space. -/
theorem clean_of_cleaned (stopwords : List Str) (u : Str)
    (hsw : removeStopwords stopwords (u.filter allowedChar ++ [' '])
            = u.filter allowedChar ++ [' ']) :
    cleanSentenceStr stopwords (u.filter allowedChar ++ [' '])
      = (u.filter allowedChar ++ [' ']) ++ [' '] := by
  have hnostar : ∀ c ∈ u.filter allowedChar ++ [' '], c ≠ '*' ∧ c ≠ '(' := by
    intro c hc
    rcases List.mem_append.mp hc with h | h
    · exact allowedChar_not_open (List.of_mem_filter h)
    · simp only [List.mem_singleton] at h
      subst h
      exact ⟨by decide, by decide⟩
  have h2 : ([' '] : Str).filter allowedChar = [' '] := by decide
  unfold cleanSentenceStr
  rw [hsw, stripDirections_no_open _ hnostar, List.filter_append, filter_allowed_idem, h2]

/-! ## The claims -/

/-- C1: in the `PreActivation` state (`recording_started` false), a
voiced frame stops playback, clears `self.processing`
(speak-permitted), seeds `self.samples` with the (just pushed)
pre-roll buffer contents, and moves the machine to `Recording`
(`recording_started` true). -/
theorem c1_preactivation_voiced {F : Type} (bufferMax : Nat) (st : GladosState F) (sample : F)
    (hpre : st.recordingStarted = false) :
    (managePreActivationBuffer bufferMax st sample true).playing = false ∧
    (managePreActivationBuffer bufferMax st sample true).processing = false ∧
    (managePreActivationBuffer bufferMax st sample true).samples
      = pushPreRoll bufferMax st.buffer sample ∧
    (managePreActivationBuffer bufferMax st sample true).buffer
      = pushPreRoll bufferMax st.buffer sample ∧
    (managePreActivationBuffer bufferMax st sample true).recordingStarted = true := by
  simp [managePreActivationBuffer]

/-- A concrete pre-activation state for the C1 witness. -/
def c1State : GladosState Nat :=
  ⟨[7], [], false, 0, true, true, true, [], []⟩

/-- C1 witness: the hypothesis is satisfiable and the theorem applies
at a concrete state and frame. -/
theorem c1_witness :
    c1State.recordingStarted = false ∧
    ((managePreActivationBuffer 2 c1State 9 true).playing = false ∧
     (managePreActivationBuffer 2 c1State 9 true).processing = false ∧
     (managePreActivationBuffer 2 c1State 9 true).samples = pushPreRoll 2 c1State.buffer 9 ∧
     (managePreActivationBuffer 2 c1State 9 true).buffer = pushPreRoll 2 c1State.buffer 9 ∧
     (managePreActivationBuffer 2 c1State 9 true).recordingStarted = true) :=
  ⟨rfl, c1_preactivation_voiced 2 c1State 9 rfl⟩

/-- C5 counterexample: the sentence-cleanup pipeline is not
idempotent — a second application appends another trailing space
(shown at the concrete input `"Hi"` with an empty stopword list). -/
theorem c5_counterexample :
    cleanSentenceStr [] (cleanSentenceStr [] (chars "Hi"))
      ≠ cleanSentenceStr [] (chars "Hi") := by
  decide

/-- C5 (amended): whenever stopword-suffix removal does not change the
once-cleaned sentence, applying the cleanup twice equals applying it
once and then appending exactly one more trailing space; the
stage-direction stripping and the character-class filter are idempotent
on cleaned output and only the unconditional trailing space breaks
idempotence. -/
theorem c5_amended_trailing_space (stopwords : List Str) (s : Str)
    (hsw : removeStopwords stopwords (cleanSentenceStr stopwords s)
            = cleanSentenceStr stopwords s) :
    cleanSentenceStr stopwords (cleanSentenceStr stopwords s)
      = cleanSentenceStr stopwords s ++ [' '] :=
  clean_of_cleaned stopwords (stripDirections (removeStopwords stopwords s)) hsw

/-- C5 witness: the amended statement at stopwords `[]` and input `"Hi"`. -/
theorem c5_amended_witness :
    removeStopwords [] (cleanSentenceStr [] (chars "Hi")) = cleanSentenceStr [] (chars "Hi") ∧
    cleanSentenceStr [] (cleanSentenceStr [] (chars "Hi"))
      = cleanSentenceStr [] (chars "Hi") ++ [' '] :=
  ⟨by decide, c5_amended_trailing_space [] (chars "Hi") (by decide)⟩

/-- `round(pct/100 * n)` at an exact integer. -/
theorem pyRound_natCast (n : ℕ) : pyRound (n : ℚ) = (n : ℤ) := by
  have h : ((n : ℚ) - ⌊(n : ℚ)⌋ : ℚ) = 0 := by
    rw [Int.floor_natCast]
    push_cast
    ring
  unfold pyRound
  rw [h]
  norm_num

/-- C8: `clip_interrupted_sentence` at `percentage_played = 100`
returns all whitespace-separated tokens joined with single spaces and
does not append the `<INTERRUPTED>` marker. -/
theorem c8_clip_at_100 (t : Str) :
    clipInterruptedSentence t 100 = spaceJoin (pySplit t) := by
  have h : (100 : ℚ) / 100 * ((pySplit t).length : ℚ) = ((pySplit t).length : ℚ) := by
    norm_num
  simp only [clipInterruptedSentence, h, pyRound_natCast, Int.toNat_natCast,
    List.take_length, lt_self_iff_false, if_false]

/-- C3: evaluated at a turn whose stream produced the two sentences
`"Hello. "` and `"World. "` before `<EOS>`, the committed assistant
turn is `"H e l l o .  "` — the `isinstance(assistant_text, list)`
workaround always fires, keeps only `assistant_text[0]`, and
`" ".join` then joins that first sentence's characters — not the
sentences joined with single spaces as the claim states. -/
theorem c3_commit_eval :
    runTtsItems ⟨[], false⟩ []
        [TtsItem.text (chars "Hello. "), TtsItem.text (chars "World. "), TtsItem.text eosStr]
      = some (⟨[], false⟩, [⟨"assistant", chars "H e l l o .  "⟩]) ∧
    chars "H e l l o .  " ≠ spaceJoin [chars "Hello. ", chars "World. "] := by
  decide

/-- C4: evaluated at a stream that ends with the non-empty residual
partial sentence `["Hi"]` (no terminator) under `speak_permitted`,
`process_LLM` enqueues the *raw token list* before `<EOS>`, not the
cleaned string `"Hi "` that `_process_sentence` would produce. -/
theorem c4_residual_eval :
    llmSuccessPuts [] [] true [⟨chars "Hi", false⟩]
      = [TtsItem.pylist [chars "Hi"], TtsItem.text eosStr] ∧
    cleanSentenceStr [] (chars "Hi") = chars "Hi " ∧
    (TtsItem.pylist [chars "Hi"] : TtsItem) ≠ TtsItem.text (chars "Hi ") := by
  decide

/-- Unfolding `streamLoop` over a stop record. -/
theorem streamLoop_cons_stop (stopwords ignore : List Str) (sentence : List Str)
    {r : LlmRec} (rest : List LlmRec) (h : r.stop = true) :
    streamLoop stopwords ignore true sentence (r :: rest)
      = streamLoop stopwords ignore true sentence rest := by
  simp [streamLoop, processLine, h]

/-- Unfolding `streamLoop` over a non-stop record with empty content. -/
theorem streamLoop_cons_empty (stopwords ignore : List Str) (sentence : List Str)
    {r : LlmRec} (rest : List LlmRec) (h1 : r.stop = false) (h2 : r.content = []) :
    streamLoop stopwords ignore true sentence (r :: rest)
      = streamLoop stopwords ignore true sentence rest := by
  simp [streamLoop, processLine, h1, h2]

/-- Unfolding `streamLoop` over a terminator token. -/
theorem streamLoop_cons_term (stopwords ignore : List Str) (sentence : List Str)
    {r : LlmRec} (rest : List LlmRec) (h1 : r.stop = false) (h2 : r.content ≠ [])
    (h3 : isTerminator r.content = true) :
    streamLoop stopwords ignore true sentence (r :: rest)
      = ⟨processSentence stopwords ignore (sentence ++ [r.content])
            ++ (streamLoop stopwords ignore true [] rest).items,
          (sentence ++ [r.content]) :: (streamLoop stopwords ignore true [] rest).raws,
          (streamLoop stopwords ignore true [] rest).resid⟩ := by
  simp [streamLoop, processLine, h1, h2, h3]

/-- Unfolding `streamLoop` over an ordinary token. -/
theorem streamLoop_cons_plain (stopwords ignore : List Str) (sentence : List Str)
    {r : LlmRec} (rest : List LlmRec) (h1 : r.stop = false) (h2 : r.content ≠ [])
    (h3 : isTerminator r.content = false) :
    streamLoop stopwords ignore true sentence (r :: rest)
      = streamLoop stopwords ignore true (sentence ++ [r.content]) rest := by
  simp [streamLoop, processLine, h1, h2, h3]

/-- `nonstopContents` over a stop record. -/
theorem nonstopContents_cons_stop {r : LlmRec} (rest : List LlmRec) (h : r.stop = true) :
    nonstopContents (r :: rest) = nonstopContents rest := by
  simp [nonstopContents, h]

/-- `nonstopContents` over a non-stop record. -/
theorem nonstopContents_cons_go {r : LlmRec} (rest : List LlmRec) (h : r.stop = false) :
    nonstopContents (r :: rest) = r.content :: nonstopContents rest := by
  simp [nonstopContents, h]

/-- The running concatenation invariant of the `process_LLM` stream
loop: flushed raw sentences plus the live buffer always concatenate to
the initial buffer plus the non-stop contents seen so far. -/
theorem streamLoop_concat (stopwords ignore : List Str) :
    ∀ (recs : List LlmRec) (sentence : List Str),
      ((streamLoop stopwords ignore true sentence recs).raws.map List.flatten).flatten
          ++ (streamLoop stopwords ignore true sentence recs).resid.flatten
        = sentence.flatten ++ (nonstopContents recs).flatten := by
  intro recs
  induction recs with
  | nil => intro sentence; simp [streamLoop, nonstopContents]
  | cons r rest ih =>
    intro sentence
    cases hstop : r.stop
    · by_cases hemp : r.content = []
      · rw [streamLoop_cons_empty stopwords ignore sentence rest hstop hemp,
            nonstopContents_cons_go rest hstop, hemp]
        simpa using ih sentence
      · cases hterm : isTerminator r.content
        · rw [streamLoop_cons_plain stopwords ignore sentence rest hstop hemp hterm,
              nonstopContents_cons_go rest hstop]
          have := ih (sentence ++ [r.content])
          simp only [List.flatten_append, List.flatten_cons, List.flatten_nil,
            List.append_nil, List.append_assoc] at this ⊢
          exact this
        · rw [streamLoop_cons_term stopwords ignore sentence rest hstop hemp hterm,
              nonstopContents_cons_go rest hstop]
          have := ih ([] : List Str)
          simp only [List.flatten_nil, List.nil_append] at this
          simp only [List.map_cons, List.flatten_cons, List.flatten_append,
            List.flatten_nil, List.append_nil, List.append_assoc]
          rw [this]
    · rw [streamLoop_cons_stop stopwords ignore sentence rest hstop,
          nonstopContents_cons_stop rest hstop]
      exact ih sentence

/-- A terminator token is a non-empty string. -/
theorem isTerminator_ne_nil {t : Str} (h : isTerminator t = true) : t ≠ [] := by
  rintro rfl
  exact absurd h (by decide)

/-- When the stream holds no non-stop record, the loop is a no-op. -/
theorem streamLoop_all_stop (stopwords ignore : List Str) :
    ∀ (recs : List LlmRec) (sentence : List Str), nonstopContents recs = [] →
      streamLoop stopwords ignore true sentence recs = ⟨[], [], sentence⟩ := by
  intro recs
  induction recs with
  | nil => intro sentence _; rfl
  | cons r rest ih =>
    intro sentence hns
    cases hstop : r.stop
    · exfalso
      rw [nonstopContents_cons_go rest hstop] at hns
      exact List.cons_ne_nil _ _ hns
    · rw [streamLoop_cons_stop stopwords ignore sentence rest hstop]
      apply ih
      rwa [nonstopContents_cons_stop rest hstop] at hns

/-- When the last non-stop token is a sentence terminator, the stream
loop ends with an empty sentence buffer. -/
theorem streamLoop_resid_nil (stopwords ignore : List Str) :
    ∀ (recs : List LlmRec) (sentence : List Str) (t : Str),
      (nonstopContents recs).getLast? = some t → isTerminator t = true →
      (streamLoop stopwords ignore true sentence recs).resid = [] := by
  intro recs
  induction recs with
  | nil => intro sentence t hlast _; simp [nonstopContents] at hlast
  | cons r rest ih =>
    intro sentence t hlast hterm
    cases hstop : r.stop
    · rw [nonstopContents_cons_go rest hstop] at hlast
      rcases hrest : nonstopContents rest with _ | ⟨c, cs⟩
      · rw [hrest] at hlast
        simp only [List.getLast?_singleton, Option.some_inj] at hlast
        subst hlast
        have hne := isTerminator_ne_nil hterm
        rw [streamLoop_cons_term stopwords ignore sentence rest hstop hne hterm]
        rw [streamLoop_all_stop stopwords ignore rest [] hrest]
      · rw [hrest, List.getLast?_cons_cons] at hlast
        have hlast2 : (nonstopContents rest).getLast? = some t := by rw [hrest]; exact hlast
        by_cases hemp : r.content = []
        · rw [streamLoop_cons_empty stopwords ignore sentence rest hstop hemp]
          exact ih sentence t hlast2 hterm
        · cases htm : isTerminator r.content
          · rw [streamLoop_cons_plain stopwords ignore sentence rest hstop hemp htm]
            exact ih (sentence ++ [r.content]) t hlast2 hterm
          · rw [streamLoop_cons_term stopwords ignore sentence rest hstop hemp htm]
            exact ih [] t hlast2 hterm
    · rw [streamLoop_cons_stop stopwords ignore sentence rest hstop]
      rw [nonstopContents_cons_stop rest hstop] at hlast
      exact ih sentence t hlast hterm

/-- C6: for a stream whose last non-stop token is a sentence
terminator, consumed with `speak_permitted` true throughout, the
concatenation of all flushed sentences (raw token concatenations,
before cleanup) equals the concatenation of the `content` fields of
all non-stop records. -/
theorem c6_stream_concat (stopwords ignore : List Str) (recs : List LlmRec) (t : Str)
    (hlast : (nonstopContents recs).getLast? = some t) (hterm : isTerminator t = true) :
    ((streamLoop stopwords ignore true [] recs).raws.map List.flatten).flatten
      = (nonstopContents recs).flatten := by
  have h1 := streamLoop_concat stopwords ignore recs []
  rw [streamLoop_resid_nil stopwords ignore recs [] t hlast hterm] at h1
  simpa using h1

/-- C6 witness: the hypotheses hold for the concrete stream
`[{content:"Hello"}, {content:"."}, {stop:true}]` and the theorem
applies there. -/
theorem c6_witness :
    ((nonstopContents [⟨chars "Hello", false⟩, ⟨chars ".", false⟩, ⟨chars "", true⟩]).getLast?
        = some (chars ".") ∧ isTerminator (chars ".") = true) ∧
    ((streamLoop [] [] true []
        [⟨chars "Hello", false⟩, ⟨chars ".", false⟩, ⟨chars "", true⟩]).raws.map
          List.flatten).flatten
      = (nonstopContents [⟨chars "Hello", false⟩, ⟨chars ".", false⟩, ⟨chars "", true⟩]).flatten :=
  ⟨⟨by decide, by decide⟩,
    c6_stream_concat [] [] [⟨chars "Hello", false⟩, ⟨chars ".", false⟩, ⟨chars "", true⟩]
      (chars ".") (by decide) (by decide)⟩

/-- C9: a non-empty transcription that case-insensitively equals an
`STT_HALLUCINATIONS` entry makes no LLM request, leaves the transcript
log unchanged, resets the utterance state (`reset()`), and restarts
audio capture. -/
theorem c9_hallucination_dropped {F : Type} (hallucinations : List Str) (wakeWord : Option Str)
    (thr : Nat) (st : GladosState F) (text : Str) (hne : text ≠ [])
    (hhall : hallucinations.any (fun h => lowerStr h == lowerStr text) = true) :
    ∃ st2, processDetectedAudio hallucinations wakeWord thr st text = some st2 ∧
      st2.llmQueue = st.llmQueue ∧ st2.messages = st.messages ∧
      st2.recordingStarted = false ∧ st2.samples = [] ∧ st2.gapCounter = 0 ∧
      st2.buffer = [] ∧ st2.captureActive = true := by
  obtain ⟨a, t2, rfl⟩ := List.exists_cons_of_ne_nil hne
  have hpda : processDetectedAudio hallucinations wakeWord thr st (a :: t2)
      = some { st with processing := true, recordingStarted := false, samples := [],
                       gapCounter := 0, buffer := [], captureActive := true } := by
    simp [processDetectedAudio, hhall]
  exact ⟨_, hpda, rfl, rfl, rfl, rfl, rfl, rfl, rfl⟩

/-- A concrete state for the C9 witness. -/
def c9State : GladosState Nat :=
  ⟨[3], [4, 5], true, 1, false, false, false, [chars "earlier"], [⟨"user", chars "earlier"⟩]⟩

/-- C9 witness: the spec's own boundary scenario — hallucination list
`["thanks for watching!"]`, ASR text `"Thanks for watching!"`. -/
theorem c9_witness :
    (chars "Thanks for watching!" ≠ [] ∧
      [chars "thanks for watching!"].any
        (fun h => lowerStr h == lowerStr (chars "Thanks for watching!")) = true) ∧
    ∃ st2, processDetectedAudio [chars "thanks for watching!"] (some (chars "glados")) 3
        c9State (chars "Thanks for watching!") = some st2 ∧
      st2.llmQueue = c9State.llmQueue ∧ st2.messages = c9State.messages ∧
      st2.recordingStarted = false ∧ st2.samples = [] ∧ st2.gapCounter = 0 ∧
      st2.buffer = [] ∧ st2.captureActive = true :=
  ⟨⟨by decide, by decide⟩,
    c9_hallucination_dropped [chars "thanks for watching!"] (some (chars "glados")) 3
      c9State (chars "Thanks for watching!") (by decide) (by decide)⟩

/-- C10: the wake-word check is only total on transcripts that contain
at least one whitespace-separated word.  On a non-empty whitespace-only
transcript `text.split()` is empty, `min([])` raises, and
`_wakeword_detected` returns no boolean — the uncaught exception also
aborts `_process_detected_audio` before `reset()` runs. -/
theorem c10_wakeword_partiality (wakeWord : Str) (thr : Nat) (text : Str)
    (hne : text ≠ []) (hws : pySplit text = []) :
    wakewordDetected wakeWord thr text = none ∧
    (∀ t2 : Str, pySplit t2 ≠ [] → ∃ b, wakewordDetected wakeWord thr t2 = some b) ∧
    (∀ (hallucinations : List Str) (st : GladosState Nat),
      hallucinations.any (fun h => lowerStr h == lowerStr text) = false →
      processDetectedAudio hallucinations (some wakeWord) thr st text = none) := by
  refine ⟨?_, ?_, ?_⟩
  · simp [wakewordDetected, hws, closestDistance]
  · intro t2 h2
    rcases h3 : pySplit t2 with _ | ⟨w, ws⟩
    · exact absurd h3 h2
    · exact ⟨decide ((ws.foldl (fun acc w2 => min acc (levenshtein (lowerStr w2) wakeWord))
            (levenshtein (lowerStr w) wakeWord)) < thr),
        by simp [wakewordDetected, h3, closestDistance]⟩
  · intro hallucinations st hhall
    obtain ⟨a, t2, rfl⟩ := List.exists_cons_of_ne_nil hne
    simp [processDetectedAudio, hhall, wakewordDetected, hws, closestDistance]

/-- C10 witness: the single-space transcript. -/
theorem c10_witness :
    (chars " " ≠ [] ∧ pySplit (chars " ") = []) ∧
    wakewordDetected (chars "glados") 3 (chars " ") = none :=
  ⟨⟨by decide, by decide⟩,
    (c10_wakeword_partiality (chars "glados") 3 (chars " ") (by decide) (by decide)).1⟩

/-- A concrete state for the C7 counterexample. -/
def c7State : GladosState Nat :=
  ⟨[], [], true, 0, false, false, false, [], []⟩

/-- C7 counterexample: the forwarding condition is *not* an iff over
all non-empty transcripts — the hallucination post-filter runs first.
With `STT_HALLUCINATIONS = ["glados"]`, wake word `"glados"` and
threshold 3, the transcript `"glados"` has minimal token distance
0 < 3, yet nothing is enqueued to the LLM queue. -/
theorem c7_counterexample :
    (closestDistance (chars "glados") (pySplit (chars "glados")) = some 0 ∧ 0 < 3) ∧
    (processDetectedAudio [chars "glados"] (some (chars "glados")) 3 c7State
        (chars "glados")).map (fun s => s.llmQueue) = some [] := by
  refine ⟨⟨by decide, by decide⟩, by decide⟩

/-- The wake-word branch of `_process_detected_audio` for a non-empty,
non-hallucinated transcript on which `_wakeword_detected` returns a
boolean: forward and permit speech if detected, otherwise just reset. -/
theorem processDetectedAudio_wake {F : Type} (hallucinations : List Str) (ww : Str)
    (thr : Nat) (st : GladosState F) (text : Str) (hne : text ≠ [])
    (hhall : hallucinations.any (fun h => lowerStr h == lowerStr text) = false)
    (b : Bool) (hww : wakewordDetected ww thr text = some b) :
    processDetectedAudio hallucinations (some ww) thr st text
      = some (if b then
          { st with llmQueue := st.llmQueue ++ [text], processing := true,
                    recordingStarted := false, samples := [], gapCounter := 0,
                    buffer := [], captureActive := true }
        else
          { st with recordingStarted := false, samples := [], gapCounter := 0,
                    buffer := [], captureActive := true }) := by
  obtain ⟨a, t2, rfl⟩ := List.exists_cons_of_ne_nil hne
  cases b
  · simp [processDetectedAudio, hhall, hww]
  · simp [processDetectedAudio, hhall, hww]

/-- C7 (amended): for every non-empty transcript that is not a
case-insensitive hallucination match and has at least one
whitespace-separated word, the utterance is forwarded to the LLM queue
iff the minimal Levenshtein distance from a lowercased word to the
wake word is strictly below the similarity threshold. -/
theorem c7_amended_gating {F : Type} (hallucinations : List Str) (wakeWord : Str)
    (thr : Nat) (st : GladosState F) (text : Str)
    (hne : text ≠ [])
    (hhall : hallucinations.any (fun h => lowerStr h == lowerStr text) = false)
    (htok : pySplit text ≠ []) :
    ∃ d, closestDistance wakeWord (pySplit text) = some d ∧
      ((processDetectedAudio hallucinations (some wakeWord) thr st text).map
          (fun s => s.llmQueue)
        = some (st.llmQueue ++ [text]) ↔ d < thr) := by
  obtain ⟨w, ws, hsplit⟩ := List.exists_cons_of_ne_nil htok
  have hcd : closestDistance wakeWord (pySplit text)
      = some (ws.foldl (fun acc w2 => min acc (levenshtein (lowerStr w2) wakeWord))
          (levenshtein (lowerStr w) wakeWord)) := by
    rw [hsplit]
    rfl
  have hww : wakewordDetected wakeWord thr text
      = some (decide ((ws.foldl (fun acc w2 => min acc (levenshtein (lowerStr w2) wakeWord))
          (levenshtein (lowerStr w) wakeWord)) < thr)) := by
    unfold wakewordDetected
    rw [hcd]
    rfl
  refine ⟨_, hcd, ?_⟩
  rw [processDetectedAudio_wake hallucinations wakeWord thr st text hne hhall _ hww]
  by_cases hd : (ws.foldl (fun acc w2 => min acc (levenshtein (lowerStr w2) wakeWord))
      (levenshtein (lowerStr w) wakeWord)) < thr
  · simp [hd]
  · have hneq : st.llmQueue ≠ st.llmQueue ++ [text] := by
      intro h
      have := congrArg List.length h
      simp at this
    simp [hd, hneq]

/-- C7 witness: the amended statement at the spec's near-hit scenario
(`"gladoss"`, wake word `"glados"`, threshold 3, no hallucination
list). -/
theorem c7_amended_witness :
    (chars "gladoss" ≠ [] ∧
      ([] : List Str).any (fun h => lowerStr h == lowerStr (chars "gladoss")) = false ∧
      pySplit (chars "gladoss") ≠ []) ∧
    ∃ d, closestDistance (chars "glados") (pySplit (chars "gladoss")) = some d ∧
      ((processDetectedAudio [] (some (chars "glados")) 3 c7State (chars "gladoss")).map
          (fun s => s.llmQueue)
        = some (c7State.llmQueue ++ [chars "gladoss"]) ↔ d < 3) :=
  ⟨⟨by decide, by decide, by decide⟩,
    c7_amended_gating [] (chars "glados") 3 c7State (chars "gladoss")
      (by decide) (by decide) (by decide)⟩

/-! ## C2: alternation of transcript roles -/

/-- The state reached after two user utterances whose LLM requests both
fail. -/
def c2Bad : SysState :=
  ⟨[⟨"user", chars "hi"⟩, ⟨"user", chars "yo"⟩], [], [], ⟨[], false⟩, true, true⟩

/-- C2 counterexample: strict user/assistant alternation does not hold
in every reachable state.  Two utterances whose LLM requests hit the
failure branch (connection error or non-OK HTTP) leave two adjacent
user turns: the user turn is appended before the request, and the
failure branches append no assistant turn. -/
theorem c2_counterexample :
    Reachable [] [] sysInit c2Bad ∧
    rolesAlternate ((c2Bad.messages.drop sysInit.messages.length).map Message.role) = false := by
  constructor
  · refine Relation.ReflTransGen.head (Step.enqueueUser sysInit (chars "hi") (by decide)) ?_
    refine Relation.ReflTransGen.head (Step.llmFail _ (chars "hi") [] rfl) ?_
    refine Relation.ReflTransGen.head (Step.enqueueUser _ (chars "yo") (by decide)) ?_
    refine Relation.ReflTransGen.head (Step.llmFail _ (chars "yo") [] rfl) ?_
    exact Relation.ReflTransGen.refl
  · decide

/-- Splitting an alternation check over an append. -/
theorem alternatesFrom_append (l m : List String) :
    ∀ r, alternatesFrom r (l ++ m)
      = (alternatesFrom r l && alternatesFrom (afterRoles r l) m) := by
  induction l with
  | nil => intro r; simp [alternatesFrom, afterRoles]
  | cons x xs ih =>
    intro r
    show (x == r && alternatesFrom (expectedAfter r) (xs ++ m))
        = ((x == r && alternatesFrom (expectedAfter r) xs)
            && alternatesFrom (afterRoles r (x :: xs)) m)
    have hafter : afterRoles r (x :: xs) = afterRoles (expectedAfter r) xs := rfl
    rw [ih (expectedAfter r), hafter, Bool.and_assoc]

/-- `afterRoles` over an append. -/
theorem afterRoles_append (r : String) (l m : List String) :
    afterRoles r (l ++ m) = afterRoles (afterRoles r l) m := by
  simp [afterRoles, List.foldl_append]

/-- Handling one proper sentence in steady local state just
accumulates it. -/
theorem ttsHandleItem_sentence (loc : TtsLocal) (msgs : List Message) (s : Str)
    (hs1 : s ≠ []) (hs2 : s ≠ eosStr) (hfin : loc.finished = false) :
    ttsHandleItem loc msgs (TtsItem.text s) 1 false
      = some ({ loc with assistantText := loc.assistantText ++ [TtsItem.text s] },
          msgs, false) := by
  obtain ⟨a, t2, rfl⟩ := List.exists_cons_of_ne_nil hs1
  simp [ttsHandleItem, truthyItem, hs2, hfin]

/-- Handling `<EOS>` with a non-empty accumulated list commits one
assistant turn and resets the local state. -/
theorem ttsHandleItem_eos (loc : TtsLocal) (msgs : List Message)
    (first : TtsItem) (acc : List TtsItem) (hacc : loc.assistantText = first :: acc) :
    ttsHandleItem loc msgs (TtsItem.text eosStr) 1 false
      = some (⟨[], false⟩, msgs ++ [⟨"assistant", commitContent first⟩], false) := by
  simp [ttsHandleItem, hacc]

/-- Running the TTS worker over the remaining sentences of a turn and
the sentinel: the messages gain exactly the one assistant turn built
from the first accumulated item, and the local state resets. -/
theorem runTtsItems_go (sents : List Str) :
    ∀ (msgs : List Message) (first : TtsItem) (acc : List TtsItem),
      (∀ s ∈ sents, s ≠ [] ∧ s ≠ eosStr) →
      runTtsItems ⟨first :: acc, false⟩ msgs
          (sents.map TtsItem.text ++ [TtsItem.text eosStr])
        = some (⟨[], false⟩, msgs ++ [⟨"assistant", commitContent first⟩]) := by
  induction sents with
  | nil =>
    intro msgs first acc _
    simp only [List.map_nil, List.nil_append, runTtsItems]
    rw [ttsHandleItem_eos ⟨first :: acc, false⟩ msgs first acc rfl]
  | cons s ss ih =>
    intro msgs first acc hs
    have h1 := hs s (List.mem_cons_self s ss)
    have hrest : ∀ s2 ∈ ss, s2 ≠ [] ∧ s2 ≠ eosStr :=
      fun s2 h2 => hs s2 (List.mem_cons_of_mem s h2)
    simp only [List.map_cons, List.cons_append, runTtsItems]
    rw [ttsHandleItem_sentence ⟨first :: acc, false⟩ msgs s h1.1 h1.2 rfl]
    have := ih msgs first (acc ++ [TtsItem.text s]) hrest
    simpa using this

/-- A completed good turn appends exactly `(user, text)` then one
assistant turn, and returns the TTS worker to its steady local
state. -/
theorem completedOkTurn_messages (stopwords ignore : List Str) (st : SysState)
    (text : Str) (recs : List LlmRec) (hloc : st.ttsLocal = ⟨[], false⟩)
    (hgood : GoodTurn stopwords ignore recs) :
    ∃ c st2, completedOkTurn stopwords ignore st text recs = some st2 ∧
      st2.messages = st.messages ++ [⟨"user", text⟩, ⟨"assistant", c⟩] ∧
      st2.ttsLocal = ⟨[], false⟩ := by
  obtain ⟨sents, hne, hputs, hs⟩ := hgood
  obtain ⟨s1, ss, rfl⟩ := List.exists_cons_of_ne_nil hne
  have h1 := hs s1 (List.mem_cons_self s1 ss)
  have hrest : ∀ s2 ∈ ss, s2 ≠ [] ∧ s2 ≠ eosStr :=
    fun s2 h2 => hs s2 (List.mem_cons_of_mem s1 h2)
  have hrun : completedOkTurn stopwords ignore st text recs
      = some { st with
          messages := st.messages
            ++ [⟨"user", text⟩, ⟨"assistant", commitContent (TtsItem.text s1)⟩],
          ttsLocal := ⟨[], false⟩ } := by
    unfold completedOkTurn
    rw [hputs, hloc]
    simp only [List.map_cons, List.cons_append, runTtsItems]
    rw [ttsHandleItem_sentence ⟨[], false⟩ (st.messages ++ [(⟨"user", text⟩ : Message)])
      s1 h1.1 h1.2 rfl]
    have h3 := runTtsItems_go ss (st.messages ++ [(⟨"user", text⟩ : Message)])
      (TtsItem.text s1) [] hrest
    simp only [List.append_eq, List.nil_append]
    rw [h3]
    simp [List.append_assoc]
  exact ⟨commitContent (TtsItem.text s1), _, hrun, rfl, rfl⟩

/-- Iterating good turns preserves the alternation invariant of the
appended part of the transcript. -/
theorem iterateOkTurns_invariant (stopwords ignore : List Str) :
    ∀ (turns : List (Str × List LlmRec)) (st st2 : SysState),
      st.ttsLocal = ⟨[], false⟩ →
      (∀ p ∈ turns, GoodTurn stopwords ignore p.2) →
      iterateOkTurns stopwords ignore st turns = some st2 →
      st2.ttsLocal = ⟨[], false⟩ ∧
      ∃ ext, st2.messages = st.messages ++ ext ∧
        alternatesFrom "user" (ext.map Message.role) = true ∧
        afterRoles "user" (ext.map Message.role) = "user" := by
  intro turns
  induction turns with
  | nil =>
    intro st st2 hloc _ hrun
    cases hrun
    exact ⟨hloc, [], by simp, rfl, rfl⟩
  | cons p more ih =>
    intro st st2 hloc hgood hrun
    obtain ⟨text, recs⟩ := p
    have hg := hgood (text, recs) (List.mem_cons_self _ _)
    obtain ⟨c, st1, hst1, hmsg1, hloc1⟩ :=
      completedOkTurn_messages stopwords ignore st text recs hloc hg
    have hgood2 : ∀ p2 ∈ more, GoodTurn stopwords ignore p2.2 :=
      fun p2 h2 => hgood p2 (List.mem_cons_of_mem _ h2)
    simp only [iterateOkTurns, hst1] at hrun
    obtain ⟨hloc2, ext, hext, halt, haft⟩ := ih st1 st2 hloc1 hgood2 hrun
    have hmap : List.map Message.role [(⟨"user", text⟩ : Message), ⟨"assistant", c⟩]
        = ["user", "assistant"] := rfl
    have ha : afterRoles "user" ["user", "assistant"] = "user" := by decide
    have hb : alternatesFrom "user" ["user", "assistant"] = true := by decide
    refine ⟨hloc2, [⟨"user", text⟩, ⟨"assistant", c⟩] ++ ext, ?_, ?_, ?_⟩
    · rw [hext, hmsg1, List.append_assoc]
    · rw [List.map_append, alternatesFrom_append, hmap, ha, hb, halt]
      rfl
    · rw [List.map_append, afterRoles_append, hmap, ha, haft]

/-- C2 (amended): strict alternation holds for the turns appended after
`INITIAL_MESSAGES` in every run made of completed successful turns —
each LLM request succeeds, flushes at least one surviving sentence with
no residual, and its sentences and sentinel are fully consumed by the
TTS worker without interruption before the next user turn. -/
theorem c2_amended_alternation (stopwords ignore : List Str)
    (init st2 : SysState) (turns : List (Str × List LlmRec))
    (hloc : init.ttsLocal = ⟨[], false⟩)
    (hgood : ∀ p ∈ turns, GoodTurn stopwords ignore p.2)
    (hrun : iterateOkTurns stopwords ignore init turns = some st2) :
    rolesAlternate ((st2.messages.drop init.messages.length).map Message.role) = true := by
  obtain ⟨-, ext, hext, halt, -⟩ :=
    iterateOkTurns_invariant stopwords ignore turns init st2 hloc hgood hrun
  rw [hext, List.drop_left]
  exact halt

/-- The single-turn stream for the C2 witness. -/
def c2Recs : List LlmRec := [⟨chars "Hello", false⟩, ⟨chars ".", false⟩]

/-- The state after that completed turn. -/
def c2Good : SysState :=
  ⟨[⟨"user", chars "hi"⟩, ⟨"assistant", chars "H e l l o .  "⟩], [], [],
    ⟨[], false⟩, false, true⟩

/-- C2 witness: the amended theorem applied to one concrete completed
turn. -/
theorem c2_amended_witness :
    (sysInit.ttsLocal = ⟨[], false⟩ ∧
      iterateOkTurns [] [] sysInit [(chars "hi", c2Recs)] = some c2Good) ∧
    rolesAlternate ((c2Good.messages.drop sysInit.messages.length).map Message.role) = true :=
  ⟨⟨rfl, by decide⟩,
    c2_amended_alternation [] [] sysInit c2Good [(chars "hi", c2Recs)] rfl
      (by
        intro p hp
        rw [List.mem_singleton] at hp
        subst hp
        exact ⟨[chars "Hello. "], by decide, by decide, by decide⟩)
      (by decide)⟩

end Glados
